import Mathlib

/-!
Verification of the GoldTalk CS 1.6 query/connect client.

Byte buffers are modelled as `List Nat` (each entry one byte of the UDP
datagram).  Pure parsing code from `cs16_parser.py` is translated into
executable Lean functions; the stateful handshake code of
`goldsrc_client.py` is translated into explicit state-passing functions
returning the packets they send.  Logging calls, debug prints and the
wall-clock timestamp field have no observable effect on the values the
claims are about and are omitted; 32-bit floats (player connect time)
are kept as their raw 4 wire bytes.
-/

/-- Byte `data[i]` of a buffer, defaulting to 0 past the end.  Every use
mirrors a spot where the Python code either guards `i < len(data)` first
or relies on a caught exception. -/
def byteAt (data : List Nat) (i : Nat) : Nat :=
  (data.drop i).headD 0

/-- Index of the first 0x00 byte of a buffer, if any.  `findNull (data.drop pos)`
mirrors Python's `data.find(b'\x00', pos)` (relative to `pos`). -/
def findNull : List Nat → Option Nat
  | [] => none
  | b :: rest => if b = 0 then some 0 else (findNull rest).map (· + 1)

/-- Function `read_string` from `cs16_parser.py` (lines 96-100): reads up to the next
0x00 byte and returns the bytes before it together with the cursor placed
just past the terminator; when no 0x00 byte follows it returns the empty
string and the cursor at the end of the buffer.  The Python decode step
(`.decode('utf-8', errors='ignore')`) is modelled by returning the raw
bytes of the string. -/
def read_string (data : List Nat) (pos : Nat) : List Nat × Nat :=
  match findNull (data.drop pos) with
  | none => ([], data.length)
  | some k => ((data.drop pos).take k, pos + k + 1)

/-! ### Buffer decomposition lemmas -/

theorem byteAt_of_drop {data r : List Nat} {i x : Nat}
    (h : data.drop i = x :: r) : byteAt data i = x := by
  simp [byteAt, h]

theorem drop_succ_of_drop {data r : List Nat} {i x : Nat}
    (h : data.drop i = x :: r) : data.drop (i + 1) = r := by
  have h1 : data.drop (i + 1) = (data.drop i).drop 1 := by
    rw [List.drop_drop]
  rw [h1, h]
  rfl

theorem drop_append_of_drop {data a r : List Nat} {pos : Nat}
    (h : data.drop pos = a ++ r) : data.drop (pos + a.length) = r := by
  have h1 : data.drop (pos + a.length) = (data.drop pos).drop a.length := by
    rw [List.drop_drop, Nat.add_comm]
  rw [h1, h, List.drop_left]

theorem findNull_append_zero {s : List Nat} (r : List Nat) (h : 0 ∉ s) :
    findNull (s ++ 0 :: r) = some s.length := by
  induction s with
  | nil => simp [findNull]
  | cons b t ih =>
    have hb : b ≠ 0 := fun hb0 => h (hb0 ▸ List.mem_cons_self b t)
    have ht : 0 ∉ t := fun hmem => h (List.mem_cons_of_mem b hmem)
    simp [findNull, hb, ih ht]

/-- Core characterization of `read_string` at a position whose suffix is a
null-terminated string. -/
theorem read_string_at {data s rest : List Nat} {pos : Nat}
    (hd : data.drop pos = s ++ 0 :: rest) (h0 : 0 ∉ s) :
    read_string data pos = (s, pos + s.length + 1) := by
  unfold read_string
  rw [hd, findNull_append_zero rest h0]
  simp [List.take_left]

/-- After reading a null-terminated string the remaining buffer is its tail. -/
theorem drop_after_string {data s rest : List Nat} {pos : Nat}
    (hd : data.drop pos = s ++ 0 :: rest) :
    data.drop (pos + s.length + 1) = rest := by
  have h : data.drop pos = (s ++ [0]) ++ rest := by simp [hd]
  have h2 := drop_append_of_drop h
  simpa [Nat.add_assoc] using h2

/-- C7: `read_string` never raises and reads up to the next 0x00 byte; but
when no 0x00 byte follows it does NOT return the remaining bytes of the
buffer: it returns the empty string (with the cursor at the buffer end).
At buffer `[0x41]` and position 0 the claim predicts `([0x41], 1)` while
the code returns `([], 1)`. -/
theorem c7_counterexample :
    read_string [0x41] 0 = ([], 1) ∧ read_string [0x41] 0 ≠ ([0x41], 1) := by
  constructor
  · rfl
  · decide

theorem findNull_eq_none_of_not_mem : ∀ {l : List Nat}, 0 ∉ l → findNull l = none := by
  intro l
  induction l with
  | nil => intro _; simp [findNull]
  | cons b t ih =>
    intro h
    have hb : b ≠ 0 := fun hb0 => h (hb0 ▸ List.mem_cons_self b t)
    have ht : 0 ∉ t := fun hmem => h (List.mem_cons_of_mem b hmem)
    simp [findNull, hb, ih ht]

/-- C7 (amended): for every buffer and position, `read_string` never
raises; when a 0x00 byte follows the position it returns the bytes
strictly before the first such byte together with the cursor placed just
past it, and when no 0x00 byte follows it returns the empty string with
the cursor at the buffer end. -/
theorem c7_read_string_amended (data : List Nat) (pos : Nat) :
    (0 ∉ data.drop pos → read_string data pos = ([], data.length)) ∧
    (∀ s rest : List Nat, data.drop pos = s ++ 0 :: rest → 0 ∉ s →
      read_string data pos = (s, pos + s.length + 1)) := by
  constructor
  · intro h
    unfold read_string
    rw [findNull_eq_none_of_not_mem h]
  · intro s rest hd h0
    exact read_string_at hd h0

/-- Witness for C7 (amended) at concrete inputs. -/
theorem c7_read_string_amended_witness :
    read_string [0x41, 0, 0x42] 0 = ([0x41], 2) ∧
    read_string [0x41, 0x42] 1 = ([], 2) := by
  constructor
  · exact (c7_read_string_amended [0x41, 0, 0x42] 0).2 [0x41] [0x42] rfl (by decide)
  · exact (c7_read_string_amended [0x41, 0x42] 1).1 (by decide)

/-! ### Extra Data Flags (EDF) tail of an A2S_INFO response
(`cs16_parser.py` lines 149-169).  The source advances the cursor through
the optional fields in this order: 0x80 port (skip 2), 0x10 SteamID
(skip 8), 0x40 SourceTV (skip 2 then read a string), 0x20 keywords (read
a string), 0x01 GameID (skip 8). -/

/-- The bitmask-gated tail decoder of `_parse_a2s_info`: given the buffer,
the cursor just past the EDF byte and the EDF byte itself, returns the
decoded keyword bytes and the final cursor, consuming the optional
sub-fields exactly as the source's if-chain does. -/
def parse_edf_tail (response : List Nat) (pos : Nat) (edf : Nat) : List Nat × Nat :=
  let o1 := if edf &&& 0x80 ≠ 0 then pos + 2 else pos
  let o2 := if edf &&& 0x10 ≠ 0 then o1 + 8 else o1
  let o3 := if edf &&& 0x40 ≠ 0 then (read_string response (o2 + 2)).2 else o2
  let kw := if edf &&& 0x20 ≠ 0 then read_string response o3 else ([], o3)
  let o5 := if edf &&& 0x01 ≠ 0 then kw.2 + 8 else kw.2
  (kw.1, o5)

/-- Modelled from the spec: the claim's bit-priority order (0x80 port,
0x40 SourceTV, 0x20 keywords, 0x10 SteamID, 0x01 GameID), stated for
comparison with the source's `parse_edf_tail`. -/
def parse_edf_tail_claimOrder (response : List Nat) (pos : Nat) (edf : Nat) : List Nat × Nat :=
  let o1 := if edf &&& 0x80 ≠ 0 then pos + 2 else pos
  let o2 := if edf &&& 0x40 ≠ 0 then (read_string response (o1 + 2)).2 else o1
  let kw := if edf &&& 0x20 ≠ 0 then read_string response o2 else ([], o2)
  let o4 := if edf &&& 0x10 ≠ 0 then kw.2 + 8 else kw.2
  let o5 := if edf &&& 0x01 ≠ 0 then o4 + 8 else o4
  (kw.1, o5)

/-- The EDF tail bytes laid out in the order the source consumes them. -/
def edfTail (edf : Nat) (pB sB tvp tvn kw gB : List Nat) : List Nat :=
  (if edf &&& 0x80 ≠ 0 then pB else []) ++
  (if edf &&& 0x10 ≠ 0 then sB else []) ++
  (if edf &&& 0x40 ≠ 0 then tvp ++ tvn ++ [0] else []) ++
  (if edf &&& 0x20 ≠ 0 then kw ++ [0] else []) ++
  (if edf &&& 0x01 ≠ 0 then gB else [])

theorem edf_skip_stage (bit : Prop) [Decidable bit] {data f r : List Nat} {pos w : Nat}
    (hf : f.length = w)
    (hd : data.drop pos = (if bit then f else []) ++ r) :
    data.drop (if bit then pos + w else pos) = r ∧
    (if bit then pos + w else pos) = pos + (if bit then f else []).length := by
  by_cases hb : bit
  · simp only [hb, if_true] at hd ⊢
    exact ⟨hf ▸ drop_append_of_drop hd, by rw [hf]⟩
  · simp only [hb, if_false] at hd ⊢
    exact ⟨by simpa using hd, by simp⟩

theorem edf_stv_stage (bit : Prop) [Decidable bit] {data tvp tvn r : List Nat} {pos : Nat}
    (hp : tvp.length = 2) (h0 : 0 ∉ tvn)
    (hd : data.drop pos = (if bit then tvp ++ tvn ++ [0] else []) ++ r) :
    data.drop (if bit then (read_string data (pos + 2)).2 else pos) = r ∧
    (if bit then (read_string data (pos + 2)).2 else pos)
      = pos + (if bit then tvp ++ tvn ++ [0] else []).length := by
  by_cases hb : bit
  · simp only [hb, if_true] at hd ⊢
    have hd2 : data.drop pos = tvp ++ (tvn ++ 0 :: r) := by
      simpa [List.append_assoc] using hd
    have hdrop2 : data.drop (pos + 2) = tvn ++ 0 :: r := by
      have := drop_append_of_drop hd2
      rwa [hp] at this
    have hrs : read_string data (pos + 2) = (tvn, pos + 2 + tvn.length + 1) :=
      read_string_at hdrop2 h0
    refine ⟨?_, ?_⟩
    · rw [hrs]
      exact drop_after_string hdrop2
    · rw [hrs]
      simp [hp]
      omega
  · simp only [hb, if_false] at hd ⊢
    exact ⟨by simpa using hd, by simp⟩

theorem edf_kw_stage (bit : Prop) [Decidable bit] {data kw r : List Nat} {pos : Nat}
    (h0 : 0 ∉ kw)
    (hd : data.drop pos = (if bit then kw ++ [0] else []) ++ r) :
    (if bit then read_string data pos else ([], pos))
      = ((if bit then kw else []), pos + (if bit then kw ++ [0] else []).length) ∧
    data.drop (pos + (if bit then kw ++ [0] else []).length) = r := by
  by_cases hb : bit
  · simp only [hb, if_true] at hd ⊢
    have hd2 : data.drop pos = kw ++ 0 :: r := by
      simpa [List.append_assoc] using hd
    refine ⟨?_, ?_⟩
    · rw [read_string_at hd2 h0]
      simp
      omega
    · have := drop_after_string hd2
      simpa [Nat.add_assoc] using this
  · simp only [hb, if_false] at hd ⊢
    exact ⟨by simp, by simpa using hd⟩

/-- Layout theorem for the source's EDF tail decoder: on a buffer whose
suffix at `pos` is laid out as port bytes, then SteamID bytes, then
SourceTV port and name, then the keyword string, then GameID bytes (each
present exactly when its EDF bit is set), the decoder returns the keyword
bytes (empty when bit 0x20 is clear) and consumes the whole tail. -/
theorem parse_edf_tail_layout {data pB sB tvp tvn kw gB rest : List Nat} {pos edf : Nat}
    (hpB : pB.length = 2) (hsB : sB.length = 8) (htvp : tvp.length = 2)
    (hgB : gB.length = 8) (htvn : 0 ∉ tvn) (hkw : 0 ∉ kw)
    (hd : data.drop pos = edfTail edf pB sB tvp tvn kw gB ++ rest) :
    parse_edf_tail data pos edf =
      ((if edf &&& 0x20 ≠ 0 then kw else []),
        pos + (edfTail edf pB sB tvp tvn kw gB).length) := by
  unfold edfTail at hd
  rw [List.append_assoc, List.append_assoc, List.append_assoc, List.append_assoc] at hd
  obtain ⟨hd1, he1⟩ := edf_skip_stage (edf &&& 0x80 ≠ 0) hpB hd
  obtain ⟨hd2, he2⟩ := edf_skip_stage (edf &&& 0x10 ≠ 0) hsB hd1
  obtain ⟨hd3, he3⟩ := edf_stv_stage (edf &&& 0x40 ≠ 0) htvp htvn hd2
  obtain ⟨hkw4, _hd4⟩ := edf_kw_stage (edf &&& 0x20 ≠ 0) hkw hd3
  simp only [parse_edf_tail]
  rw [hkw4]
  dsimp only
  simp only [Prod.mk.injEq]
  refine ⟨trivial, ?_⟩
  rw [he3, he2, he1]
  unfold edfTail
  simp only [List.length_append]
  by_cases hg : edf &&& 0x01 ≠ 0
  · rw [if_pos hg, if_pos hg, hgB]
    omega
  · rw [if_neg hg, if_neg hg]
    simp only [List.length_nil]
    omega

/-- C1 (counterexample): with EDF = 0x30 (SteamID and keywords both set)
and the tail laid out as the source consumes it (8 SteamID bytes, then
the null-terminated keyword string "TAG"), the source decoder reads the
keywords after skipping the SteamID, while a decoder following the
claim's bit-priority order (0x40/0x20 before 0x10) would swallow the
SteamID bytes into the keyword string.  The two decoders disagree on
this input, so the claimed order is not the code's order. -/
theorem c1_counterexample :
    parse_edf_tail [1, 2, 3, 4, 5, 6, 7, 8, 84, 65, 71, 0] 0 0x30 = ([84, 65, 71], 12) ∧
    parse_edf_tail_claimOrder [1, 2, 3, 4, 5, 6, 7, 8, 84, 65, 71, 0] 0 0x30
      = ([1, 2, 3, 4, 5, 6, 7, 8, 84, 65, 71], 20) ∧
    parse_edf_tail_claimOrder [1, 2, 3, 4, 5, 6, 7, 8, 84, 65, 71, 0] 0 0x30
      ≠ parse_edf_tail [1, 2, 3, 4, 5, 6, 7, 8, 84, 65, 71, 0] 0 0x30 := by
  refine ⟨?_, ?_, ?_⟩ <;> decide

/-- C1 (amended): the EDF decoder consumes the bitmask-gated optional
sub-fields in the fixed order 0x80 port, 0x10 SteamID, 0x40 SourceTV,
0x20 keywords, 0x01 GameID: on every buffer whose suffix at `pos` is laid
out in exactly that order it returns the keyword bytes (empty when bit
0x20 is clear) and a cursor that has consumed the entire gated tail. -/
theorem c1_edf_order_amended {data pB sB tvp tvn kw gB rest : List Nat} {pos edf : Nat}
    (hpB : pB.length = 2) (hsB : sB.length = 8) (htvp : tvp.length = 2)
    (hgB : gB.length = 8) (htvn : 0 ∉ tvn) (hkw : 0 ∉ kw)
    (hd : data.drop pos = edfTail edf pB sB tvp tvn kw gB ++ rest) :
    parse_edf_tail data pos edf =
      ((if edf &&& 0x20 ≠ 0 then kw else []),
        pos + (edfTail edf pB sB tvp tvn kw gB).length) :=
  parse_edf_tail_layout hpB hsB htvp hgB htvn hkw hd

/-- Witness for C1 (amended): EDF = 0xF1 (every gated field present). -/
theorem c1_edf_order_amended_witness :
    parse_edf_tail
      ([10, 11] ++ [1, 2, 3, 4, 5, 6, 7, 8] ++ ([20, 21] ++ [72, 76] ++ [0]) ++
        ([84, 65, 71] ++ [0]) ++ [9, 9, 9, 9, 9, 9, 9, 9]) 0 0xF1
      = ([84, 65, 71], 27) := by
  have h := @c1_edf_order_amended
    ([10, 11] ++ [1, 2, 3, 4, 5, 6, 7, 8] ++ ([20, 21] ++ [72, 76] ++ [0]) ++
      ([84, 65, 71] ++ [0]) ++ [9, 9, 9, 9, 9, 9, 9, 9])
    [10, 11] [1, 2, 3, 4, 5, 6, 7, 8] [20, 21] [72, 76]
    [84, 65, 71] [9, 9, 9, 9, 9, 9, 9, 9] [] 0 0xF1
    (by decide) (by decide) (by decide) (by decide) (by decide) (by decide) (by decide)
  simpa using h

/-! ### A2S_INFO decoding (`cs16_parser.py` lines 78-197) -/

/-- The dictionary `_parse_a2s_info` builds.  The truncated-response
branch (lines 107-120) leaves every field from `appid` on absent, which
is modelled by `none`; the count fields are the string `'N/A'` there.
`server_type`/`environment` are kept as their byte values (Python stores
`chr(byte)`, `'?'` = 0x3F when missing); `secure`/`password` are
`bool(vac)`/`bool(visibility)`; the `timestamp` field (wall clock) is
omitted. -/
structure ServerInfo where
  host : String
  port : Nat
  protocol : Nat
  server_name : List Nat
  map_name : List Nat
  game_dir : List Nat
  game_name : List Nat
  appid : Option Nat := none
  players : Option Nat := none
  max_players : Option Nat := none
  bots : Option Nat := none
  free_slots : Option Nat := none
  server_type : Option Nat := none
  environment : Option Nat := none
  secure : Option Bool := none
  password : Option Bool := none
  version : Option (List Nat) := none
  tags : Option (List Nat) := none
deriving Repr, DecidableEq

/-- Function `_parse_a2s_info`: decodes an A2S_INFO response buffer.  Returns
`none` exactly where the source returns `None` (bad type byte or a
buffer too short to hold the protocol byte).  Offsets `o4 + 5 … o4 + 9`
are the source's `offset += 1` steps after the count bytes; Python's
`max(0, max_players - players)` is `Nat` truncated subtraction. -/
def parse_a2s_info (response : List Nat) (host : String) (port : Nat) : Option ServerInfo :=
  if 4 ≥ response.length then none
  else if byteAt response 4 ≠ 0x49 then none
  else if 5 ≥ response.length then none
  else
    let protocol := byteAt response 5
    let r1 := read_string response 6
    let r2 := read_string response r1.2
    let r3 := read_string response r2.2
    let r4 := read_string response r3.2
    let o4 := r4.2
    if o4 + 6 > response.length then
      some { host := host, port := port, protocol := protocol,
             server_name := r1.1, map_name := r2.1, game_dir := r3.1, game_name := r4.1 }
    else
      let appid := byteAt response o4 + 256 * byteAt response (o4 + 1)
      let players := byteAt response (o4 + 2)
      let max_players := byteAt response (o4 + 3)
      let bots := byteAt response (o4 + 4)
      let server_type := if o4 + 5 < response.length then byteAt response (o4 + 5) else 0x3F
      let environment := if o4 + 6 < response.length then byteAt response (o4 + 6) else 0x3F
      let visibility := if o4 + 7 < response.length then byteAt response (o4 + 7) else 0
      let vac := if o4 + 8 < response.length then byteAt response (o4 + 8) else 0
      let rv := read_string response (o4 + 9)
      let edf := if rv.2 < response.length then byteAt response rv.2 else 0
      let kwp := parse_edf_tail response (rv.2 + 1) edf
      some { host := host, port := port, protocol := protocol,
             server_name := r1.1, map_name := r2.1, game_dir := r3.1, game_name := r4.1,
             appid := some appid, players := some players, max_players := some max_players,
             bots := some bots, free_slots := some (max_players - players),
             server_type := some server_type, environment := some environment,
             secure := some (vac != 0), password := some (visibility != 0),
             version := some rv.1, tags := some kwp.1 }

/-- A well-formed A2S_INFO response buffer: connectionless marker, type
byte 'I', protocol byte, four null-terminated strings, appid (two
bytes), player/max/bot counts, server type, environment, visibility,
VAC, null-terminated version string, the EDF byte, then the gated tail. -/
def mkInfoResponse (proto : Nat) (s1 s2 s3 s4 : List Nat)
    (a0 a1 p m b st en vis vac : Nat) (ver : List Nat) (edf : Nat)
    (tail : List Nat) : List Nat :=
  255 :: 255 :: 255 :: 255 :: 0x49 :: proto ::
    (s1 ++ 0 :: (s2 ++ 0 :: (s3 ++ 0 :: (s4 ++ 0 ::
      (a0 :: a1 :: p :: m :: b :: st :: en :: vis :: vac ::
        (ver ++ 0 :: edf :: tail))))))

theorem drop_idx_of_drop {data r : List Nat} {i j x : Nat}
    (h : data.drop i = x :: r) (hj : j = i + 1) : data.drop j = r := by
  subst hj; exact drop_succ_of_drop h

/-- Decoding a fully well-formed A2S_INFO response: every field of the
resulting record, including the keyword tags gated by the EDF byte. -/
theorem parse_a2s_info_wellFormed
    {s1 s2 s3 s4 ver pB sB tvp tvn kw gB rest : List Nat}
    {proto a0 a1 p m b st en vis vac edf : Nat} {host : String} {port : Nat}
    (h1 : 0 ∉ s1) (h2 : 0 ∉ s2) (h3 : 0 ∉ s3) (h4 : 0 ∉ s4) (hv : 0 ∉ ver)
    (hpB : pB.length = 2) (hsB : sB.length = 8) (htvp : tvp.length = 2)
    (hgB : gB.length = 8) (htvn : 0 ∉ tvn) (hkw : 0 ∉ kw) :
    parse_a2s_info
      (mkInfoResponse proto s1 s2 s3 s4 a0 a1 p m b st en vis vac ver edf
        (edfTail edf pB sB tvp tvn kw gB ++ rest)) host port =
    some { host := host, port := port, protocol := proto,
           server_name := s1, map_name := s2, game_dir := s3, game_name := s4,
           appid := some (a0 + 256 * a1), players := some p, max_players := some m,
           bots := some b, free_slots := some (m - p),
           server_type := some st, environment := some en,
           secure := some (vac != 0), password := some (vis != 0),
           version := some ver, tags := some (if edf &&& 0x20 ≠ 0 then kw else []) } := by
  generalize hTdef : edfTail edf pB sB tvp tvn kw gB ++ rest = T
  set data := mkInfoResponse proto s1 s2 s3 s4 a0 a1 p m b st en vis vac ver edf T with hdata
  have hlen : data.length
      = s1.length + s2.length + s3.length + s4.length + ver.length + T.length + 21 := by
    simp only [hdata, mkInfoResponse, List.length_cons, List.length_append]
    omega
  have hd4b : data.drop 4 = 0x49 :: proto :: (s1 ++ 0 :: (s2 ++ 0 :: (s3 ++ 0 :: (s4 ++ 0 ::
      (a0 :: a1 :: p :: m :: b :: st :: en :: vis :: vac :: (ver ++ 0 :: edf :: T)))))) := by
    rw [hdata]; rfl
  have hd5b : data.drop 5 = proto :: (s1 ++ 0 :: (s2 ++ 0 :: (s3 ++ 0 :: (s4 ++ 0 ::
      (a0 :: a1 :: p :: m :: b :: st :: en :: vis :: vac :: (ver ++ 0 :: edf :: T)))))) := by
    rw [hdata]; rfl
  have hd6 : data.drop 6 = s1 ++ 0 :: (s2 ++ 0 :: (s3 ++ 0 :: (s4 ++ 0 ::
      (a0 :: a1 :: p :: m :: b :: st :: en :: vis :: vac :: (ver ++ 0 :: edf :: T))))) := by
    rw [hdata]; rfl
  have hb4 : byteAt data 4 = 0x49 := byteAt_of_drop hd4b
  have hb5 : byteAt data 5 = proto := byteAt_of_drop hd5b
  have hr1 : read_string data 6 = (s1, 6 + s1.length + 1) := read_string_at hd6 h1
  have hd7 := drop_after_string hd6
  have hr2 : read_string data (6 + s1.length + 1)
      = (s2, 6 + s1.length + 1 + s2.length + 1) := read_string_at hd7 h2
  have hd8 := drop_after_string hd7
  have hr3 : read_string data (6 + s1.length + 1 + s2.length + 1)
      = (s3, 6 + s1.length + 1 + s2.length + 1 + s3.length + 1) := read_string_at hd8 h3
  have hd9 := drop_after_string hd8
  have hr4 : read_string data (6 + s1.length + 1 + s2.length + 1 + s3.length + 1)
      = (s4, 6 + s1.length + 1 + s2.length + 1 + s3.length + 1 + s4.length + 1) :=
    read_string_at hd9 h4
  have hdF : data.drop (6 + s1.length + 1 + s2.length + 1 + s3.length + 1 + s4.length + 1)
      = a0 :: a1 :: p :: m :: b :: st :: en :: vis :: vac :: (ver ++ 0 :: edf :: T) :=
    drop_after_string hd9
  have hba0 := byteAt_of_drop hdF
  have hdF1 : data.drop (6 + s1.length + 1 + s2.length + 1 + s3.length + 1 + s4.length + 1 + 1)
      = a1 :: p :: m :: b :: st :: en :: vis :: vac :: (ver ++ 0 :: edf :: T) :=
    drop_idx_of_drop hdF (by omega)
  have hba1 := byteAt_of_drop hdF1
  have hdF2 : data.drop (6 + s1.length + 1 + s2.length + 1 + s3.length + 1 + s4.length + 1 + 2)
      = p :: m :: b :: st :: en :: vis :: vac :: (ver ++ 0 :: edf :: T) :=
    drop_idx_of_drop hdF1 (by omega)
  have hbp := byteAt_of_drop hdF2
  have hdF3 : data.drop (6 + s1.length + 1 + s2.length + 1 + s3.length + 1 + s4.length + 1 + 3)
      = m :: b :: st :: en :: vis :: vac :: (ver ++ 0 :: edf :: T) :=
    drop_idx_of_drop hdF2 (by omega)
  have hbm := byteAt_of_drop hdF3
  have hdF4 : data.drop (6 + s1.length + 1 + s2.length + 1 + s3.length + 1 + s4.length + 1 + 4)
      = b :: st :: en :: vis :: vac :: (ver ++ 0 :: edf :: T) :=
    drop_idx_of_drop hdF3 (by omega)
  have hbb := byteAt_of_drop hdF4
  have hdF5 : data.drop (6 + s1.length + 1 + s2.length + 1 + s3.length + 1 + s4.length + 1 + 5)
      = st :: en :: vis :: vac :: (ver ++ 0 :: edf :: T) :=
    drop_idx_of_drop hdF4 (by omega)
  have hbst := byteAt_of_drop hdF5
  have hdF6 : data.drop (6 + s1.length + 1 + s2.length + 1 + s3.length + 1 + s4.length + 1 + 6)
      = en :: vis :: vac :: (ver ++ 0 :: edf :: T) :=
    drop_idx_of_drop hdF5 (by omega)
  have hben := byteAt_of_drop hdF6
  have hdF7 : data.drop (6 + s1.length + 1 + s2.length + 1 + s3.length + 1 + s4.length + 1 + 7)
      = vis :: vac :: (ver ++ 0 :: edf :: T) :=
    drop_idx_of_drop hdF6 (by omega)
  have hbvis := byteAt_of_drop hdF7
  have hdF8 : data.drop (6 + s1.length + 1 + s2.length + 1 + s3.length + 1 + s4.length + 1 + 8)
      = vac :: (ver ++ 0 :: edf :: T) :=
    drop_idx_of_drop hdF7 (by omega)
  have hbvac := byteAt_of_drop hdF8
  have hdV : data.drop (6 + s1.length + 1 + s2.length + 1 + s3.length + 1 + s4.length + 1 + 9)
      = ver ++ 0 :: edf :: T :=
    drop_idx_of_drop hdF8 (by omega)
  have hrv : read_string data
      (6 + s1.length + 1 + s2.length + 1 + s3.length + 1 + s4.length + 1 + 9)
      = (ver, 6 + s1.length + 1 + s2.length + 1 + s3.length + 1 + s4.length + 1 + 9
          + ver.length + 1) := read_string_at hdV hv
  have hdE : data.drop (6 + s1.length + 1 + s2.length + 1 + s3.length + 1 + s4.length + 1 + 9
      + ver.length + 1) = edf :: T := drop_after_string hdV
  have hbe := byteAt_of_drop hdE
  have hdT : data.drop (6 + s1.length + 1 + s2.length + 1 + s3.length + 1 + s4.length + 1 + 9
      + ver.length + 1 + 1) = edfTail edf pB sB tvp tvn kw gB ++ rest := by
    rw [drop_succ_of_drop hdE, ← hTdef]
  have hlay := parse_edf_tail_layout hpB hsB htvp hgB htvn hkw hdT
  have c4 : ¬ (4 ≥ data.length) := by omega
  have c5 : ¬ (5 ≥ data.length) := by omega
  have c6 : ¬ (6 + s1.length + 1 + s2.length + 1 + s3.length + 1 + s4.length + 1 + 6
      > data.length) := by omega
  have cst : 6 + s1.length + 1 + s2.length + 1 + s3.length + 1 + s4.length + 1 + 5
      < data.length := by omega
  have cen : 6 + s1.length + 1 + s2.length + 1 + s3.length + 1 + s4.length + 1 + 6
      < data.length := by omega
  have cvis : 6 + s1.length + 1 + s2.length + 1 + s3.length + 1 + s4.length + 1 + 7
      < data.length := by omega
  have cvac : 6 + s1.length + 1 + s2.length + 1 + s3.length + 1 + s4.length + 1 + 8
      < data.length := by omega
  have cedf : 6 + s1.length + 1 + s2.length + 1 + s3.length + 1 + s4.length + 1 + 9
      + ver.length + 1 < data.length := by omega
  simp only [parse_a2s_info]
  rw [if_neg c4, if_neg (by simp [hb4]), if_neg c5]
  simp only [hb5, hr1, hr2, hr3, hr4]
  rw [if_neg c6]
  simp only [hba0, hba1, hbp, hbm, hbb, hrv]
  rw [if_pos cst, if_pos cen, if_pos cvis, if_pos cvac, if_pos cedf]
  simp only [hbst, hben, hbvis, hbvac, hbe, hlay]


/-- C2: for every well-formed A2S_INFO response whose EDF byte has both
bit 0x20 (keywords) and bit 0x10 (SteamID) set, the decoder consumes the
SteamID's fixed 8 bytes before it reads the keyword string: the decoded
`tags` field equals the keyword text `kw` that the buffer places after
the 8 SteamID bytes `sB`. -/
theorem c2_steamid_before_keywords
    {s1 s2 s3 s4 ver pB sB tvp tvn kw gB rest : List Nat}
    {proto a0 a1 p m b st en vis vac edf : Nat} {host : String} {port : Nat}
    (h1 : 0 ∉ s1) (h2 : 0 ∉ s2) (h3 : 0 ∉ s3) (h4 : 0 ∉ s4) (hv : 0 ∉ ver)
    (hpB : pB.length = 2) (hsB : sB.length = 8) (htvp : tvp.length = 2)
    (hgB : gB.length = 8) (htvn : 0 ∉ tvn) (hkw : 0 ∉ kw)
    (h10 : edf &&& 0x10 ≠ 0) (h20 : edf &&& 0x20 ≠ 0) :
    (parse_a2s_info
      (mkInfoResponse proto s1 s2 s3 s4 a0 a1 p m b st en vis vac ver edf
        (edfTail edf pB sB tvp tvn kw gB ++ rest)) host port).map ServerInfo.tags
      = some (some kw) ∧
    edfTail edf pB sB tvp tvn kw gB =
      (if edf &&& 0x80 ≠ 0 then pB else []) ++ sB ++
      (if edf &&& 0x40 ≠ 0 then tvp ++ tvn ++ [0] else []) ++ (kw ++ [0]) ++
      (if edf &&& 0x01 ≠ 0 then gB else []) := by
  constructor
  · rw [parse_a2s_info_wellFormed h1 h2 h3 h4 hv hpB hsB htvp hgB htvn hkw]
    simp [h20]
  · unfold edfTail
    rw [if_pos h10, if_pos h20]

/-- Witness for C2: EDF = 0x30, SteamID bytes 1..8, keywords "TAG". -/
theorem c2_steamid_before_keywords_witness :
    (parse_a2s_info
      (mkInfoResponse 48 [78] [77] [68] [71] 10 0 5 16 0 100 108 0 1 [49] 0x30
        (edfTail 0x30 [0, 0] [1, 2, 3, 4, 5, 6, 7, 8] [0, 0] [] [84, 65, 71]
          [0, 0, 0, 0, 0, 0, 0, 0] ++ []))
      "h" 27015).map ServerInfo.tags = some (some [84, 65, 71]) := by
  have h := @c2_steamid_before_keywords
    [78] [77] [68] [71] [49]
    [0, 0] [1, 2, 3, 4, 5, 6, 7, 8] [0, 0] []
    [84, 65, 71] [0, 0, 0, 0, 0, 0, 0, 0] []
    48 10 0 5 16 0 100 108 0 1 0x30 "h" 27015
    (by decide) (by decide) (by decide) (by decide) (by decide)
    (by decide) (by decide) (by decide) (by decide) (by decide) (by decide)
    (by decide) (by decide)
  exact h.1

/-- C6: an A2S_INFO response that ends with fewer than the 6 bytes of the
fixed-field prefix left after the four strings (e.g. truncated right
after the gameName string) decodes to a partial `ServerInfo`: host,
port, protocol, name, map, game directory and game name are populated,
the player/max/bot count fields (and everything after them) are absent
(`'N/A'` in the source), and the whole record is neither discarded nor
does the decoder raise. -/
theorem c6_truncated_partial_record
    {s1 s2 s3 s4 extra : List Nat} {proto : Nat} {host : String} {port : Nat}
    (h1 : 0 ∉ s1) (h2 : 0 ∉ s2) (h3 : 0 ∉ s3) (h4 : 0 ∉ s4)
    (hx : extra.length < 6) :
    parse_a2s_info
      (255 :: 255 :: 255 :: 255 :: 0x49 :: proto ::
        (s1 ++ 0 :: (s2 ++ 0 :: (s3 ++ 0 :: (s4 ++ 0 :: extra))))) host port =
    some { host := host, port := port, protocol := proto,
           server_name := s1, map_name := s2, game_dir := s3, game_name := s4 } := by
  set data := 255 :: 255 :: 255 :: 255 :: 0x49 :: proto ::
    (s1 ++ 0 :: (s2 ++ 0 :: (s3 ++ 0 :: (s4 ++ 0 :: extra)))) with hdata
  have hlen : data.length
      = s1.length + s2.length + s3.length + s4.length + extra.length + 10 := by
    simp only [hdata, List.length_cons, List.length_append]
    omega
  have hd4b : data.drop 4 = 0x49 :: proto ::
      (s1 ++ 0 :: (s2 ++ 0 :: (s3 ++ 0 :: (s4 ++ 0 :: extra)))) := by
    rw [hdata]; rfl
  have hd5b : data.drop 5 = proto ::
      (s1 ++ 0 :: (s2 ++ 0 :: (s3 ++ 0 :: (s4 ++ 0 :: extra)))) := by
    rw [hdata]; rfl
  have hd6 : data.drop 6 = s1 ++ 0 :: (s2 ++ 0 :: (s3 ++ 0 :: (s4 ++ 0 :: extra))) := by
    rw [hdata]; rfl
  have hb4 : byteAt data 4 = 0x49 := byteAt_of_drop hd4b
  have hb5 : byteAt data 5 = proto := byteAt_of_drop hd5b
  have hr1 : read_string data 6 = (s1, 6 + s1.length + 1) := read_string_at hd6 h1
  have hd7 := drop_after_string hd6
  have hr2 : read_string data (6 + s1.length + 1)
      = (s2, 6 + s1.length + 1 + s2.length + 1) := read_string_at hd7 h2
  have hd8 := drop_after_string hd7
  have hr3 : read_string data (6 + s1.length + 1 + s2.length + 1)
      = (s3, 6 + s1.length + 1 + s2.length + 1 + s3.length + 1) := read_string_at hd8 h3
  have hd9 := drop_after_string hd8
  have hr4 : read_string data (6 + s1.length + 1 + s2.length + 1 + s3.length + 1)
      = (s4, 6 + s1.length + 1 + s2.length + 1 + s3.length + 1 + s4.length + 1) :=
    read_string_at hd9 h4
  have c4 : ¬ (4 ≥ data.length) := by omega
  have c5 : ¬ (5 ≥ data.length) := by omega
  have c6 : 6 + s1.length + 1 + s2.length + 1 + s3.length + 1 + s4.length + 1 + 6
      > data.length := by omega
  simp only [parse_a2s_info]
  rw [if_neg c4, if_neg (by simp [hb4]), if_neg c5]
  simp only [hb5, hr1, hr2, hr3, hr4]
  rw [if_pos c6]

/-- Witness for C6: a response truncated immediately after the gameName
string ("N", "M", "D", "G" as the four strings). -/
theorem c6_truncated_partial_record_witness :
    parse_a2s_info
      (255 :: 255 :: 255 :: 255 :: 0x49 :: 48 ::
        ([78] ++ 0 :: ([77] ++ 0 :: ([68] ++ 0 :: ([71] ++ 0 :: []))))) "h" 27015 =
    some { host := "h", port := 27015, protocol := 48,
           server_name := [78], map_name := [77], game_dir := [68], game_name := [71] } :=
  @c6_truncated_partial_record [78] [77] [68] [71] [] 48 "h" 27015
    (by decide) (by decide) (by decide) (by decide) (by decide)

/-! ### A2S_PLAYER decoding (`cs16_parser.py` lines 288-341) -/

/-- Python `struct.unpack` with format `<i`: signed 32-bit little-endian read. -/
def int32LE (data : List Nat) (i : Nat) : Int :=
  let u := byteAt data i + 256 * byteAt data (i + 1) + 65536 * byteAt data (i + 2)
    + 16777216 * byteAt data (i + 3)
  if u < 2147483648 then (u : Int) else (u : Int) - 4294967296

/-- One decoded player entry.  `time_bits` keeps the 4 raw bytes of the
32-bit float connect time (floats are not modelled); the derived
`time_seconds`/`time_formatted` strings and the constant
`source = 'A2S'` tag are omitted. -/
structure PlayerRec where
  index : Nat
  name : List Nat
  score : Int
  time_bits : List Nat
deriving Repr, DecidableEq

/-- The per-player loop of `_parse_a2s_players` (lines 307-337): fuel is
the remaining player count; every truncation (`offset` past the end, no
null terminator for the name, fewer than 8 bytes for score and time)
stops the loop, keeping the records decoded so far. -/
def parse_players_loop (response : List Nat) : Nat → Nat → List PlayerRec
  | 0, _ => []
  | n + 1, offset =>
    if offset ≥ response.length then []
    else
      match findNull (response.drop (offset + 1)) with
      | none => []
      | some k =>
        if offset + 1 + k + 1 + 8 > response.length then []
        else
          { index := byteAt response offset,
            name := (response.drop (offset + 1)).take k,
            score := int32LE response (offset + 1 + k + 1),
            time_bits := (response.drop (offset + 1 + k + 1 + 4)).take 4 }
            :: parse_players_loop response n (offset + 1 + k + 1 + 8)

/-- Function `_parse_a2s_players`: a buffer shorter than 5 bytes raises an
`IndexError` at `response[4]` which the source's catch-all turns into
`[]`; a wrong type byte or a missing count byte also yield `[]`. -/
def parse_a2s_players (response : List Nat) : List PlayerRec :=
  if response.length < 5 then []
  else if byteAt response 4 ≠ 0x55 ∧ byteAt response 4 ≠ 0x44 then []
  else if response.length ≤ 5 then []
  else parse_players_loop response (byteAt response 5) 6

theorem parse_players_loop_length_le (response : List Nat) :
    ∀ n offset, (parse_players_loop response n offset).length ≤ n := by
  intro n
  induction n with
  | zero => intro offset; simp [parse_players_loop]
  | succ f ih =>
    intro offset
    simp only [parse_players_loop]
    by_cases h1 : offset ≥ response.length
    · simp [h1]
    · simp only [h1, if_false]
      cases hfn : findNull (response.drop (offset + 1)) with
      | none => simp
      | some k =>
        by_cases h2 : offset + 1 + k + 1 + 8 > response.length
        · simp [h2]
        · simp only [h2, if_false, List.length_cons]
          exact Nat.succ_le_succ (ih _)

theorem byteAt_take {l : List Nat} {n i : Nat} (h : i < n) :
    byteAt (l.take n) i = byteAt l i := by
  unfold byteAt
  rw [List.drop_take]
  cases hd : l.drop i with
  | nil => simp
  | cons a t =>
    cases hn : n - i with
    | zero => omega
    | succ m => simp [List.take]

theorem take_take_of_le {l : List Nat} {k m : Nat} (h : k ≤ m) :
    (l.take m).take k = l.take k := by
  rw [List.take_take, Nat.min_eq_left h]

theorem take_drop_take {l : List Nat} {n o k : Nat} (h : o + k ≤ n) :
    ((l.take n).drop o).take k = (l.drop o).take k := by
  rw [List.drop_take]
  exact take_take_of_le (by omega)

theorem int32LE_take {l : List Nat} {n i : Nat} (h : i + 4 ≤ n) :
    int32LE (l.take n) i = int32LE l i := by
  unfold int32LE
  rw [byteAt_take (by omega), byteAt_take (by omega), byteAt_take (by omega),
    byteAt_take (by omega)]

theorem findNull_lt_length : ∀ {l : List Nat} {k : Nat}, findNull l = some k → k < l.length := by
  intro l
  induction l with
  | nil => intro k h; simp [findNull] at h
  | cons b t ih =>
    intro k h
    simp only [findNull] at h
    by_cases hb : b = 0
    · rw [if_pos hb] at h
      simp only [Option.some.injEq] at h
      simp [← h]
    · rw [if_neg hb] at h
      cases ht : findNull t with
      | none => rw [ht] at h; simp at h
      | some q =>
        rw [ht] at h
        have hq : q + 1 = k := by simpa using h
        have := ih ht
        simp only [List.length_cons]
        omega

theorem findNull_take : ∀ {l : List Nat} {m k : Nat},
    findNull (l.take m) = some k → findNull l = some k := by
  intro l
  induction l with
  | nil => intro m k h; simp [findNull] at h
  | cons b t ih =>
    intro m k h
    cases m with
    | zero => simp [findNull] at h
    | succ q =>
      simp only [List.take_succ_cons] at h
      simp only [findNull] at h ⊢
      by_cases hb : b = 0
      · rw [if_pos hb] at h ⊢; exact h
      · rw [if_neg hb] at h ⊢
        cases ht : findNull (t.take q) with
        | none => rw [ht] at h; simp at h
        | some r =>
          rw [ht] at h
          rw [ih ht]
          exact h

theorem parse_players_loop_take_prefix (response : List Nat) (n : Nat) :
    ∀ fuel offset, parse_players_loop (response.take n) fuel offset
      <+: parse_players_loop response fuel offset := by
  intro fuel
  induction fuel with
  | zero => intro offset; simp [parse_players_loop]
  | succ f ih =>
    intro offset
    have hlen : (response.take n).length = min n response.length := List.length_take n response
    simp only [parse_players_loop]
    by_cases h1 : offset ≥ (response.take n).length
    · rw [if_pos h1]; exact List.nil_prefix
    · rw [if_neg h1, if_neg (show ¬(offset ≥ response.length) by omega)]
      cases hfn : findNull ((response.take n).drop (offset + 1)) with
      | none => exact List.nil_prefix
      | some k =>
        have heq : (response.take n).drop (offset + 1)
            = (response.drop (offset + 1)).take (n - (offset + 1)) :=
          List.drop_take n (offset + 1) response
        have hfull : findNull (response.drop (offset + 1)) = some k := by
          rw [heq] at hfn
          exact findNull_take hfn
        have hklen := findNull_lt_length hfn
        have hdroplen : ((response.take n).drop (offset + 1)).length
            = (response.take n).length - (offset + 1) := List.length_drop _ _
        rw [hfull]
        dsimp only
        by_cases h2 : offset + 1 + k + 1 + 8 > (response.take n).length
        · rw [if_pos h2]; exact List.nil_prefix
        · rw [if_neg h2,
            if_neg (show ¬(offset + 1 + k + 1 + 8 > response.length) by omega)]
          refine List.cons_prefix_cons.mpr ⟨?_, ih _⟩
          rw [byteAt_take (by omega), take_drop_take (by omega),
            int32LE_take (by omega), take_drop_take (by omega)]

/-- C10: for every input byte sequence, the A2S_PLAYER response decoder
is total (the source's catch-all makes any malformed buffer yield `[]`),
returns at most as many records as the count byte at offset 5 announces,
and behaves monotonically under truncation: decoding any prefix of a
buffer yields a prefix of the records decoded from the full buffer, so a
buffer ending mid-record yields exactly the records fully decoded before
the cut. -/
theorem c10_player_decoder_safe (response : List Nat) (n : Nat) :
    (parse_a2s_players response).length ≤ byteAt response 5 ∧
    parse_a2s_players (response.take n) <+: parse_a2s_players response := by
  constructor
  · unfold parse_a2s_players
    split_ifs with ha hb hc
    · simp
    · simp
    · simp
    · exact parse_players_loop_length_le response _ 6
  · have hlen : (response.take n).length = min n response.length := List.length_take n response
    unfold parse_a2s_players
    by_cases ha : (response.take n).length < 5
    · rw [if_pos ha]; exact List.nil_prefix
    · rw [if_neg ha, if_neg (show ¬(response.length < 5) by omega)]
      have hb4 : byteAt (response.take n) 4 = byteAt response 4 := byteAt_take (by omega)
      by_cases hb : byteAt response 4 ≠ 0x55 ∧ byteAt response 4 ≠ 0x44
      · rw [if_pos (by rw [hb4]; exact hb), if_pos hb]
      · rw [if_neg (by rw [hb4]; exact hb), if_neg hb]
        by_cases hc : (response.take n).length ≤ 5
        · rw [if_pos hc]; exact List.nil_prefix
        · rw [if_neg hc, if_neg (show ¬(response.length ≤ 5) by omega)]
          rw [byteAt_take (show 5 < n by omega)]
          exact parse_players_loop_take_prefix response n _ 6

/-! ### `query_server_players_a2s` (`cs16_parser.py` lines 224-286)
Network I/O is modelled by passing the outcome of each of the up to three
`recvfrom` calls explicitly: `none` is a socket timeout, `some r` the
received datagram.  The bytes sent are not needed by any claim and are
omitted; the function returns the player list exactly as the source
does. -/

/-- Both challenge requests share this check on the reply (lines 247 and
260): at least 5 bytes, connectionless marker, type byte `S2C_CHALLENGE`
0x41. -/
def valid_challenge_resp (r : List Nat) : Bool :=
  decide (r.length ≥ 5) && decide (r.take 4 = [255, 255, 255, 255]) && (byteAt r 4 == 0x41)

/-- The challenge token one attempt yields: `response[5:9]` on a valid
reply, the empty (falsy) byte string on a timeout or invalid reply. -/
def chalOf (r : Option (List Nat)) : List Nat :=
  match r with
  | some r => if valid_challenge_resp r then (r.drop 5).take 4 else []
  | none => []

/-- Function `query_server_players_a2s`: tries the 0x55-with-trailer challenge
request (reply `r1`), then the legacy 0x57 request (reply `r2`) when the
first yielded nothing, then sends A2S_PLAYER with the challenge and
decodes the final reply `r3` when its type byte is 0x55 or 0x44. -/
def query_server_players_a2s (r1 r2 r3 : Option (List Nat)) : List PlayerRec :=
  let c1 := chalOf r1
  let c := if c1 ≠ [] then c1 else chalOf r2
  if c ≠ [] then
    match r3 with
    | some r =>
      if r.length ≥ 5 ∧ r.take 4 = [255, 255, 255, 255]
          ∧ (byteAt r 4 = 0x55 ∨ byteAt r 4 = 0x44) then
        parse_a2s_players r
      else []
    | none => []
  else []

/-- C8: whenever neither challenge attempt yields a (non-empty) token —
both replies timed out or were invalid — or the final A2S_PLAYER request
times out, `query_server_players_a2s` returns the empty player list
rather than raising or returning an error value. -/
theorem c8_no_challenge_or_timeout_empty (r1 r2 r3 : Option (List Nat))
    (h : (chalOf r1 = [] ∧ chalOf r2 = []) ∨ r3 = none) :
    query_server_players_a2s r1 r2 r3 = [] := by
  unfold query_server_players_a2s
  rcases h with ⟨h1, h2⟩ | h3
  · simp [h1, h2]
  · subst h3
    dsimp only
    split <;> first | rfl | (split <;> rfl)

/-- Witness for C8: both challenge attempts time out. -/
theorem c8_no_challenge_or_timeout_empty_witness :
    query_server_players_a2s none none (some [255, 255, 255, 255, 0x44, 0]) = [] :=
  c8_no_challenge_or_timeout_empty none none (some [255, 255, 255, 255, 0x44, 0])
    (Or.inl ⟨rfl, rfl⟩)

/-! ### GoldSrc handshake client (`goldsrc_client.py`)
The client's mutable state is made explicit; packet handlers return the
new state together with the packets they send and the commands they
schedule with `loop.call_later` (delays kept in tenths of a second:
1.0 s, 1.5 s, 2.0 s become 10, 15, 20).  Logging and the best-effort
chat-extraction callbacks have no effect on state or traffic and are
omitted.  Task handles (`read_task`, `keep_alive_task`) and the socket
are modelled as cancelled/open flags so that `close` is expressible. -/

/-- ASCII bytes of a Lean string (all command strings are 7-bit). -/
def ascii (s : String) : List Nat :=
  s.data.map Char.toNat

/-- The 4-byte connectionless marker. -/
def oobMarker : List Nat := [255, 255, 255, 255]

/-- A connectionless packet: marker followed by the ASCII command. -/
def oob_str (s : String) : List Nat :=
  oobMarker ++ ascii s

/-- State of one `GoldSrcClient` (fields set in `__init__`, plus
cancelled/open flags for the two tasks and the UDP socket). -/
structure GoldSrcClient where
  nickname : String
  is_connected : Bool
  challenge : Int
  connection_step : Nat
  read_cancelled : Bool
  keepalive_cancelled : Bool
  sock_open : Bool
deriving Repr, DecidableEq

/-- A freshly constructed client (`__init__`, lines 17-42). -/
def client_init (nick : String) : GoldSrcClient :=
  { nickname := nick, is_connected := false, challenge := 0, connection_step := 0,
    read_cancelled := false, keepalive_cancelled := false, sock_open := true }

/-- Packets produced by one event: sent immediately, or scheduled via
`loop.call_later` (delay in tenths of a second, packet bytes). -/
structure Effects where
  sent : List (List Nat)
  scheduled : List (Nat × List Nat)
deriving Repr, DecidableEq

def noEffects : Effects := { sent := [], scheduled := [] }

/-- Constant `PROTO_VERSION` (line 10). -/
def PROTO_VERSION : Nat := 48

/-- The auth-info block of the effective `perform_connect`
(lines 193-207; the second definition in the file overrides the first,
so the captured constant cdkey is the one used). -/
def auth_info : String :=
  "\\prot\\3\\unique\\-1\\raw\\steam\\cdkey\\c8fe91a668eb0265b3bc52cf12dccf31"

/-- The user-info block of the effective `perform_connect`
(lines 209-224). -/
def user_info (nick : String) : String :=
  "\\name\\" ++ nick ++
  "\\model\\gordon\\topcolor\\30\\bottomcolor\\6\\rate\\100000\\cl_updaterate\\102" ++
  "\\cl_lw\\1\\cl_lc\\1\\cl_dlmax\\512\\_vgui_menus\\1\\_ah\\1\\_cl_autowepswitch\\1" ++
  "\\can_voice_record\\1"

/-- The `connect` command string (line 226). -/
def connect_cmd (nick : String) (challenge : Int) : String :=
  "connect " ++ toString PROTO_VERSION ++ " " ++ toString challenge ++ " \"" ++
    auth_info ++ "\" \"" ++ user_info nick ++ "\""

/-- Method `send_new` (lines 231-241): sends `new` immediately and schedules
`jointeam 1` (+1.0 s), `joinclass 1` (+1.5 s) and `+left` (+2.0 s). -/
def send_new_effects : Effects :=
  { sent := [oob_str "new"],
    scheduled := [(10, oob_str "jointeam 1"), (15, oob_str "joinclass 1"),
      (20, oob_str "+left")] }

/-- Python `int()` on a byte string, for the simple forms the challenge
payload uses: an optional sign followed by one or more ASCII digits
(whitespace/underscore forms are not produced by any caller). -/
def pythonInt (l : List Nat) : Option Int :=
  let digits : List Nat → Option Nat := fun d =>
    if d ≠ [] ∧ d.all (fun b => 48 ≤ b ∧ b ≤ 57) then
      some (d.foldl (fun a b => 10 * a + (b - 48)) 0)
    else none
  match l with
  | 45 :: rest => (digits rest).map (fun v => -(v : Int))
  | 43 :: rest => (digits rest).map (fun v => (v : Int))
  | _ => (digits l).map (fun v => (v : Int))

/-- Method `handle_packet` (lines 108-191).  Packets shorter than 5 bytes are
dropped (line 109).  Connectionless packets: type byte `'A'` parses the
second space-separated token of the payload as the challenge and sends
the `connect` command; `'B'` (rejection) and `'9'` only log.  Any other
packet is network-channel traffic: the first one received while not
connected flips `is_connected`, sets `connection_step := 2` and runs
`send_new`. -/
def handle_packet (st : GoldSrcClient) (data : List Nat) : GoldSrcClient × Effects :=
  if data.length < 5 then (st, noEffects)
  else if data.take 4 = oobMarker then
    let payload := data.drop 4
    let header := payload.take 1
    let content := payload.drop 1
    if header = [65] then
      let parts := content.splitOn 32
      if parts.length > 1 then
        match pythonInt (parts.getD 1 []) with
        | some c =>
          ({ st with challenge := c },
           { sent := [oob_str (connect_cmd st.nickname c)], scheduled := [] })
        | none => (st, noEffects)
      else (st, noEffects)
    else if header = [66] then (st, noEffects)
    else (st, noEffects)
  else
    if st.is_connected then (st, noEffects)
    else ({ st with is_connected := true, connection_step := 2 }, send_new_effects)

/-- Method `close` (lines 260-267): clears `is_connected`, cancels the
read-loop and keepalive tasks, closes the socket. -/
def close (c : GoldSrcClient) : GoldSrcClient :=
  { c with
    is_connected := false
    read_cancelled := true
    keepalive_cancelled := true
    sock_open := false }

/-- The S2C_CHALLENGE packet of the claim: marker then ASCII
`"A00000000 123456 ..."`. -/
def c3_input : List Nat :=
  [255, 255, 255, 255, 65, 48, 48, 48, 48, 48, 48, 48, 48, 32,
   49, 50, 51, 52, 53, 54, 32, 46, 46, 46]

theorem c3_input_spelling : c3_input = oobMarker ++ ascii "A00000000 123456 ..." := by
  decide

/-- C3: in any state (in particular right after the `getchallenge` was
sent), receiving the S2C_CHALLENGE packet with payload
`"A00000000 123456 ..."` stores `challenge = 123456` and immediately
emits exactly one `connect` packet; that packet's text is the protocol
version constant, the challenge value, then the quoted backslash-
delimited auth-info block and the quoted backslash-delimited user-info
block. -/
theorem c3_challenge_then_connect (st : GoldSrcClient) :
    handle_packet st c3_input =
      ({ st with challenge := 123456 },
       { sent := [oob_str (connect_cmd st.nickname 123456)], scheduled := [] }) ∧
    connect_cmd st.nickname 123456 =
      "connect 48 123456 \"" ++ auth_info ++ "\" \"" ++ user_info st.nickname ++ "\"" := by
  constructor
  · rfl
  · rfl

/-- C4 (counterexample): the 3-byte packet `[1, 2, 3]` does not begin
with the connectionless marker and arrives while not connected, yet the
code's `len(data) < 5` guard drops it: no transition to Connected
happens and no `new` command is sent. -/
theorem c4_counterexample :
    handle_packet (client_init "Bot") [1, 2, 3] = (client_init "Bot", noEffects) ∧
    (handle_packet (client_init "Bot") [1, 2, 3]).1.is_connected = false := by
  exact ⟨rfl, rfl⟩

/-- C4 (amended): every inbound packet of length at least 5 that does
not begin with the connectionless marker, received while the session is
not yet connected, triggers the transition to Connected
(`connection_step = 2`), sending `new` immediately and scheduling the
join commands. -/
theorem c4_netchan_connect_amended (st : GoldSrcClient) (data : List Nat)
    (h5 : 5 ≤ data.length) (hm : data.take 4 ≠ oobMarker)
    (hc : st.is_connected = false) :
    handle_packet st data =
      ({ st with is_connected := true, connection_step := 2 }, send_new_effects) := by
  unfold handle_packet
  rw [if_neg (show ¬(data.length < 5) by omega), if_neg hm, hc]
  simp

/-- Witness for C4 (amended). -/
theorem c4_netchan_connect_amended_witness :
    handle_packet (client_init "Bot") [0, 1, 2, 3, 4] =
      ({ client_init "Bot" with is_connected := true, connection_step := 2 },
       send_new_effects) :=
  c4_netchan_connect_amended (client_init "Bot") [0, 1, 2, 3, 4]
    (by decide) (by decide) rfl

/-- C5 (amended): an explicit connection-rejection packet (marker, type
byte `'B'`, any content) is only logged: the state is unchanged, no
packet is sent, nothing is scheduled — the session is NOT closed and no
failure is escalated. -/
theorem c5_rejection_only_logged_amended (st : GoldSrcClient) (content : List Nat) :
    handle_packet st (255 :: 255 :: 255 :: 255 :: 66 :: content) = (st, noEffects) := by
  unfold handle_packet
  rw [if_neg (show ¬((255 :: 255 :: 255 :: 255 :: 66 :: content : List Nat).length < 5) by
    simp)]
  rw [if_pos
    (show (255 :: 255 :: 255 :: 255 :: 66 :: content : List Nat).take 4 = oobMarker from rfl)]
  rw [if_neg (show ¬(((255 :: 255 :: 255 :: 255 :: 66 :: content : List Nat).drop 4).take 1
    = [65]) by simp)]
  rw [if_pos (show ((255 :: 255 :: 255 :: 255 :: 66 :: content : List Nat).drop 4).take 1
    = [66] from rfl)]

/-- C5 (counterexample): on the concrete rejection packet
`FF FF FF FF 'B' "Full"`, the handler leaves the state untouched — the
socket is still open, the read-loop is not cancelled (so the session is
not in the closed configuration that `close` produces) — and emits no
failure and no packet. -/
theorem c5_counterexample :
    handle_packet (client_init "Bot") [255, 255, 255, 255, 66, 70, 117, 108, 108]
      = (client_init "Bot", noEffects) ∧
    (client_init "Bot").sock_open = true ∧
    (client_init "Bot").read_cancelled = false ∧
    client_init "Bot" ≠ close (client_init "Bot") := by
  refine ⟨rfl, rfl, rfl, ?_⟩
  decide

/-! ### Session lifecycle (`app.py` lines 62-130 with `close`)
`join_game` creates one `GoldSrcClient` per web session, registers it in
`clients`, and spawns `poll_players_task`, whose handle is dropped (it
is never cancelled; it loops `while target_sid in clients`).  The web
`disconnect` handler calls `client.close()` and removes the sid from the
registry.  Events after that — a `loop.call_later` callback firing, the
poller reaching its loop condition, a keepalive iteration — are modelled
as an explicit event trace; each step returns the packets sent from the
session's own UDP socket (the poller's A2S queries use fresh sockets of
the parser, not the session's endpoint, so its tick emits nothing
here). -/

structure AppSession where
  client : GoldSrcClient
  in_registry : Bool
  poller_cancelled : Bool
  poller_done : Bool
deriving Repr, DecidableEq

/-- A session as `join_game` leaves it (lines 104-111): fresh client,
registered, poller task running and with its handle dropped. -/
def session_init (nick : String) : AppSession :=
  { client := client_init nick, in_registry := true, poller_cancelled := false,
    poller_done := false }

/-- The web `disconnect` handler (lines 126-130): `close()` the client
and delete the sid from the registry.  Nothing cancels the poller task
and nothing touches the `call_later` callbacks. -/
def app_disconnect (s : AppSession) : AppSession :=
  { s with client := close s.client, in_registry := false }

inductive SessionEvent where
  | schedFire (pkt : List Nat)
  | pollerTick
  | keepAliveTick
deriving Repr, DecidableEq

/-- One cooperative step.  `schedFire pkt`: a scheduled `send_packet`
runs — on a closed socket the send raises and is swallowed (lines
88-93), so nothing is emitted.  `pollerTick`: `poll_players_task`
reaches its `while target_sid in clients` check; if the sid is gone the
task returns.  `keepAliveTick`: one `keep_alive` iteration, which sends
the `time` probe only while `is_connected` (lines 243-258). -/
def session_step (s : AppSession) (e : SessionEvent) : AppSession × List (List Nat) :=
  match e with
  | .schedFire pkt => (s, if s.client.sock_open then [pkt] else [])
  | .pollerTick =>
    if s.poller_cancelled || s.poller_done then (s, [])
    else if s.in_registry then (s, [])
    else ({ s with poller_done := true }, [])
  | .keepAliveTick =>
    if s.client.keepalive_cancelled then (s, [])
    else if s.client.is_connected && s.client.sock_open then (s, [oob_str "time"])
    else (s, [])

/-- Run a trace of events, collecting every packet emitted from the
session's UDP endpoint. -/
def session_run (s : AppSession) : List SessionEvent → AppSession × List (List Nat)
  | [] => (s, [])
  | e :: es =>
    let st := session_step s e
    let rest := session_run st.1 es
    (rest.1, st.2 ++ rest.2)

theorem session_run_silent : ∀ (evs : List SessionEvent) (s : AppSession),
    s.client.sock_open = false → s.client.keepalive_cancelled = true →
    (session_run s evs).2 = [] := by
  intro evs
  induction evs with
  | nil => intro s _ _; rfl
  | cons e es ih =>
    intro s h1 h2
    cases e with
    | schedFire pkt =>
      simp [session_run, session_step, h1, ih s h1 h2]
    | pollerTick =>
      simp only [session_run, session_step]
      by_cases hc : (s.poller_cancelled || s.poller_done) = true
      · simp [hc, ih s h1 h2]
      · by_cases hr : s.in_registry = true
        · simp [hc, hr, ih s h1 h2]
        · simp [hc, hr]
          exact ih _ h1 h2
    | keepAliveTick =>
      simp [session_run, session_step, h2, ih s h1 h2]

/-- C9 (counterexample): closing a session (the web `disconnect`
handler: `close()` plus registry removal) does NOT cancel the poller
task: right after the close the poller is neither cancelled nor
finished, and it is still live — its next loop-condition check is what
makes it return. -/
theorem c9_counterexample :
    (app_disconnect (session_init "Bot")).poller_cancelled = false ∧
    (app_disconnect (session_init "Bot")).poller_done = false ∧
    (session_step (app_disconnect (session_init "Bot")) .pollerTick).1.poller_done
      = true := by
  exact ⟨rfl, rfl, rfl⟩

/-- C9 (amended): closing a session cancels the read-loop and keepalive
tasks and closes the UDP socket, and afterwards no packet is ever
emitted from the session's UDP endpoint — the delayed scheduled join
commands still fire but their sends fail on the closed socket; the
poller task, however, is not cancelled: it terminates by observing the
registry removal at its next loop check. -/
theorem c9_close_silent_amended (s : AppSession) (evs : List SessionEvent) :
    (app_disconnect s).client.read_cancelled = true ∧
    (app_disconnect s).client.keepalive_cancelled = true ∧
    (app_disconnect s).client.sock_open = false ∧
    (session_run (app_disconnect s) evs).2 = [] :=
  ⟨rfl, rfl, rfl, session_run_silent evs _ rfl rfl⟩
